import Mathlib

/-!
# Verification of the announcement scheduling cog

A shallow embedding of `src/cogs/commands/announce.py`: the `Announcement`
record, the store queries used by the `list` command and the scheduler,
the service commands (`add`, `cancel`, `check`, `mention`), the scheduler
cycle of `announcement_check`, and the reaction menu handler of
`preview_edit_menu`.  The database session is modelled as a list of
records; timestamps are integers; Discord/network effects are modelled as
explicit events and environment functions.
-/

/-- The persisted `Announcement` row (`models.Announcement`): id, user_id,
announcement_content, trigger_at, triggered, playback_channel_id, irc_name. -/
structure Announcement where
  id : Nat
  user_id : Nat
  announcement_content : String
  trigger_at : Int
  triggered : Bool
  playback_channel_id : Nat
  irc_name : Option String
deriving Repr, DecidableEq

/-- The `db_session.query(...).filter(trigger_at <= now, triggered == False)`
query of `announcement_check`: all due, untriggered records. -/
def dueQuery (db : List Announcement) (now : Int) : List Announcement :=
  db.filter (fun a => decide (a.trigger_at ≤ now) && !a.triggered)

/-- The query of the `list` command:
`filter(trigger_at >= now, triggered == False)` — pending announcements. -/
def Announcements.list (db : List Announcement) (now : Int) : List Announcement :=
  db.filter (fun a => decide (now ≤ a.trigger_at) && !a.triggered)

/-- `db_session.query(Announcement).where(Announcement.id == i).first()`. -/
def findAnnouncement (db : List Announcement) (i : Nat) : Option Announcement :=
  db.find? (fun a => a.id == i)

/-- `db_session.delete(row)` applied to the row returned by `.first()`:
removes the first record whose id matches. -/
def deleteAnnouncement : List Announcement → Nat → List Announcement
  | [], _ => []
  | a :: rest, i => if a.id == i then rest else a :: deleteAnnouncement rest i

/-- In-place mutation of the row returned by `.first()` followed by a
commit: the first record whose id matches is replaced by `f` of it. -/
def updateAnnouncement : List Announcement → Nat → (Announcement → Announcement) → List Announcement
  | [], _, _ => []
  | a :: rest, i, f => if a.id == i then f a :: rest else a :: updateAnnouncement rest i f

/-- Outcome of the `cancel` command: which message was sent. -/
inductive CancelOutcome
  | deleted
  | notFound
deriving Repr, DecidableEq

/-- `Announcements.cancel`: look the row up by id; delete and commit if
present ("Announcement Deleted"), else report "Announcement does not exist". -/
def Announcements.cancel (db : List Announcement) (i : Nat) :
    List Announcement × CancelOutcome :=
  match findAnnouncement db i with
  | some _ => (deleteAnnouncement db i, CancelOutcome.deleted)
  | none => (db, CancelOutcome.notFound)

/-- Runtime failure of the Python code: attribute access on `None`
(the unguarded `result.announcement_content` after `.first()`). -/
inductive PyError
  | attributeErrorNone
deriving Repr, DecidableEq

/-- `Announcements.check`: posts the raw source of the announcement.  The
code dereferences the query result without a `None` guard, so a missing id
raises `AttributeError`. -/
def Announcements.check (db : List Announcement) (i : Nat) :
    Except PyError String :=
  match findAnnouncement db i with
  | none => Except.error PyError.attributeErrorNone
  | some a => Except.ok a.announcement_content

/-- A Discord role as used by the `mention` command: its `name` and its
`mention` token string. -/
structure Role where
  name : String
  mention : String
deriving Repr, DecidableEq

/-- The content mutation of the `mention` command:
`announcement_content += "\n" + " ".join([r.mention for r in roles])`. -/
def mentionUpdate (roles : List Role) (b : Announcement) : Announcement :=
  { b with announcement_content :=
      b.announcement_content ++ "\n" ++ String.intercalate " " (roles.map Role.mention) }

/-- The confirmation message sent by the `mention` command. -/
def mentionMessage (i : Nat) (roles : List Role) : String :=
  "Pings added for " ++ String.intercalate ", " (roles.map Role.name) ++
    " to announcement " ++ toString i ++ "."

/-- `Announcements.mention`: look the row up by id, append the
space-joined role mentions preceded by a newline, commit, confirm.  The
code dereferences the query result without a `None` guard, so a missing id
raises `AttributeError`. -/
def Announcements.mention (db : List Announcement) (i : Nat) (roles : List Role) :
    Except PyError (List Announcement × String) :=
  match findAnnouncement db i with
  | none => Except.error PyError.attributeErrorNone
  | some _ => Except.ok (updateAnnouncement db i (mentionUpdate roles), mentionMessage i roles)

/-- The author of a new announcement: a resolved database user
(`get_database_user(ctx.author).id`) or an IRC bridge identity
(`user_is_irc_bot`, carrying only a display name). -/
inductive Author
  | dbUser (uid : Nat)
  | ircUser (displayName : String)
deriving Repr, DecidableEq

/-- `add_announcement`: builds the new row.  For a bridge author the
`user_id` is set to the dummy value `1` ("we won't be using it anyway")
and `irc_name` carries the display name; for a database user `user_id` is
the resolved id and `irc_name` is `None`.  `triggered` starts false. -/
def add_announcement (author : Author) (channelId : Nat) (trigger_time : Int)
    (content : String) (newId : Nat) : Announcement :=
  match author with
  | Author.ircUser n =>
      { id := newId, user_id := 1, announcement_content := content,
        trigger_at := trigger_time, triggered := false,
        playback_channel_id := channelId, irc_name := some n }
  | Author.dbUser uid =>
      { id := newId, user_id := uid, announcement_content := content,
        trigger_at := trigger_time, triggered := false,
        playback_channel_id := channelId, irc_name := none }

/-- Outcome message of the `add` command. -/
inductive AddOutcome
  | badFormat
  | pastTime
  | notConfirmed
  | scheduled
  | storeFailed
deriving Repr, DecidableEq

/-- `Announcements.add`: reject an unparsed time, reject a time strictly
before `now` ("That time is in the past."), run the preview menu
(`confirmed` is its result), then persist via `add_announcement` with the
commit either succeeding or rolling back (`storeOk`). -/
def Announcements.add (db : List Announcement) (now : Int) (trigger_time : Option Int)
    (confirmed : Bool) (author : Author) (channelId : Nat) (content : String)
    (newId : Nat) (storeOk : Bool) : List Announcement × AddOutcome :=
  match trigger_time with
  | none => (db, AddOutcome.badFormat)
  | some t =>
    if t < now then (db, AddOutcome.pastTime)
    else if confirmed then
      if storeOk then
        (db ++ [add_announcement author channelId t content newId], AddOutcome.scheduled)
      else (db, AddOutcome.storeFailed)
    else (db, AddOutcome.notConfirmed)

/-!
## The scheduler loop `announcement_check`

One poll cycle of the loop: snapshot `now`, run `dueQuery`, and process
each due record: resolve channel (`bot.get_channel`), find or create the
webhook (`get_webhook`), resolve author name/avatar, set
`triggered = True`, commit, then post via `generate_announcement`.  Any
uncaught exception aborts the cycle (and kills the task), which the
embedding records as a `SchedErr`.
-/

/-- Uncaught exceptions that can abort a scheduler cycle. -/
inductive SchedErr
  | channelUnresolved
  | userUnresolved
  | deliveryFailed
deriving Repr, DecidableEq

/-- Observable effects of a scheduler cycle, in order: the
`triggered = True` + commit of a record, a successful post of its content
to its channel, or an attempted post that raised. -/
inductive Event
  | markCommit (id : Nat)
  | deliver (id : Nat) (channel : Nat) (content : String)
  | deliverFail (id : Nat)
deriving Repr, DecidableEq

/-- The announcement id an event concerns. -/
def eventId : Event → Nat
  | Event.markCommit i => i
  | Event.deliver i _ _ => i
  | Event.deliverFail i => i

/-- Whether an event is a delivery attempt (successful or failed) for
announcement `i`. -/
def isDeliveryAttempt (i : Nat) : Event → Bool
  | Event.deliver j _ _ => j == i
  | Event.deliverFail j => j == i
  | Event.markCommit _ => false

/-- The environment a cycle runs against: the `ANNOUNCEMENT_IMPERSONATE`
flag, which channel ids `bot.get_channel` resolves, which channels permit
webhook management, `bot.get_user` (name lookup), the bot's own name, and
whether posting to a channel succeeds. -/
structure SchedEnv where
  impersonate : Bool
  hasChannel : Nat → Bool
  webhookPerm : Nat → Bool
  getUser : Nat → Option String
  botName : String
  deliverOk : Nat → Bool

/-- `get_webhook(channel)`: `channel.webhooks()` on an unresolved (`None`)
channel raises `AttributeError`; otherwise the webhook is found or
created, with `MissingPermissions` caught and turned into `None`. -/
def get_webhook (channelResolved : Bool) (canManageWebhooks : Bool) :
    Except SchedErr (Option Unit) :=
  if channelResolved then
    Except.ok (if canManageWebhooks then some () else none)
  else
    Except.error SchedErr.channelUnresolved

/-- Author name resolution of the loop body: an `irc_name` is used
directly; otherwise `bot.get_user(uid)` under impersonation (raising if it
returns `None`), or the bot's own identity. -/
def resolveName (env : SchedEnv) (a : Announcement) : Option String :=
  match a.irc_name with
  | some n => some n
  | none => if env.impersonate then env.getUser a.user_id else some env.botName

/-- The loop body for one due record: returns whether the record was
marked (and committed), the emitted events in order, and the exception
that aborted the body, if any.  Marking and committing happen before the
post is attempted; a failed post leaves the committed flag in place. -/
def processItem (env : SchedEnv) (a : Announcement) :
    Bool × List Event × Option SchedErr :=
  match get_webhook (env.hasChannel a.playback_channel_id)
      (env.webhookPerm a.playback_channel_id) with
  | Except.error e => (false, [], some e)
  | Except.ok _ =>
    match resolveName env a with
    | none => (false, [], some SchedErr.userUnresolved)
    | some _ =>
      if env.deliverOk a.playback_channel_id then
        (true,
         [Event.markCommit a.id,
          Event.deliver a.id a.playback_channel_id a.announcement_content], none)
      else
        (true, [Event.markCommit a.id, Event.deliverFail a.id],
         some SchedErr.deliveryFailed)

/-- `a.triggered = True` on the row with id `i` (ids are unique in the
database, so updating by id matches the object mutation). -/
def markTriggered (db : List Announcement) (i : Nat) : List Announcement :=
  db.map (fun a => if a.id = i then { a with triggered := true } else a)

/-- Iterate the loop body over the snapshot of due records, threading the
database and collecting events; an exception aborts the remaining items. -/
def runDue (env : SchedEnv) : List Announcement → List Announcement →
    List Announcement × List Event × Option SchedErr
  | [], db => (db, [], none)
  | a :: rest, db =>
    match processItem env a with
    | (marked, evs, some e) =>
        (if marked then markTriggered db a.id else db, evs, some e)
    | (marked, evs, none) =>
        let s := runDue env rest (if marked then markTriggered db a.id else db)
        (s.1, evs ++ s.2.1, s.2.2)

/-- One cycle of `announcement_check`: query the due records at `now` and
process each. -/
def announcement_check_cycle (env : SchedEnv) (now : Int) (db : List Announcement) :
    List Announcement × List Event × Option SchedErr :=
  runDue env (dueQuery db now) db

/-- Any number of further scheduler cycles, each with its own environment
and snapshot time, chaining the database and concatenating events. -/
def runCycles : List (SchedEnv × Int) → List Announcement →
    List Announcement × List Event
  | [], db => (db, [])
  | (env, now) :: rest, db =>
    let c := announcement_check_cycle env now db
    let s := runCycles rest c.1
    (s.1, c.2.1 ++ s.2)

/-- Every record with id `i` in the store carries `triggered = true`. -/
def allTriggered (db : List Announcement) (i : Nat) : Prop :=
  ∀ b ∈ db, b.id = i → b.triggered = true

/-!
## The confirmation menu `preview_edit_menu`

The reaction handler `interact` of the menu: it always deletes the prompt
message first; on ❌ or ✏️ it deletes the preview messages, sends the
cancellation notice or resubmits the source message, and returns `False`;
on ✅ it sends the hint (in preview mode), deletes the preview messages,
and returns `True`.
-/

/-- A recognised menu reaction: ✅, ✏️ or ❌. -/
inductive Reaction
  | confirm
  | edit
  | cancel
deriving Repr, DecidableEq

/-- The observable outcome of one `interact` call: whether the prompt was
deleted, which preview messages were deleted, the texts sent, whether the
source message was resubmitted, and the boolean handed back to the menu. -/
structure InteractResult where
  promptDeleted : Bool
  deletedPreviews : List Nat
  sent : List String
  resubmitted : Bool
  returnValue : Bool
deriving Repr, DecidableEq

/-- The hint sent on ✅ in preview mode. -/
def previewHint (content : String) : String :=
  "Preview complete. Send this message with\n`!announcement add #announcements 10s \n"
    ++ content ++ "`"

/-- `preview_edit_menu.interact`, over the list of preview message ids it
closes over. -/
def interact (messages : List Nat) (content : String) (preview : Bool)
    (r : Reaction) : InteractResult :=
  match r with
  | Reaction.cancel =>
      { promptDeleted := true, deletedPreviews := messages,
        sent := ["Announcement cancelled"], resubmitted := false,
        returnValue := false }
  | Reaction.edit =>
      { promptDeleted := true, deletedPreviews := messages,
        sent := [], resubmitted := true, returnValue := false }
  | Reaction.confirm =>
      { promptDeleted := true, deletedPreviews := messages,
        sent := if preview then [previewHint content] else [],
        resubmitted := false, returnValue := true }

/-!
## Concrete sample inputs used by the witnesses and counterexamples
-/

/-- A pending sample announcement, due at time 0. -/
def sampleAnn : Announcement :=
  { id := 0, user_id := 5, announcement_content := "hello", trigger_at := 0,
    triggered := false, playback_channel_id := 7, irc_name := none }

/-- The sample announcement after the scheduler has fired it. -/
def sampleAnnTriggered : Announcement :=
  { sampleAnn with triggered := true }

/-- An already-triggered sample announcement. -/
def trigAnn : Announcement :=
  { id := 0, user_id := 5, announcement_content := "old", trigger_at := -5,
    triggered := true, playback_channel_id := 7, irc_name := none }

/-- An environment in which every channel resolves, webhooks may be
managed, and every post succeeds. -/
def envAllOk : SchedEnv :=
  { impersonate := false, hasChannel := fun _ => true,
    webhookPerm := fun _ => true, getUser := fun _ => some "someone",
    botName := "Apollo", deliverOk := fun _ => true }

/-- Like `envAllOk`, but every post raises. -/
def envNoDeliver : SchedEnv :=
  { envAllOk with deliverOk := fun _ => false }

/-- A due record whose destination channel 7 does not resolve. -/
def annA : Announcement :=
  { id := 0, user_id := 5, announcement_content := "a", trigger_at := 0,
    triggered := false, playback_channel_id := 7, irc_name := none }

/-- A due record on the resolvable channel 8. -/
def annB : Announcement :=
  { id := 1, user_id := 5, announcement_content := "b", trigger_at := 0,
    triggered := false, playback_channel_id := 8, irc_name := none }

/-- An environment in which only channel 8 resolves. -/
def envC6 : SchedEnv :=
  { impersonate := false, hasChannel := fun c => c == 8,
    webhookPerm := fun _ => true, getUser := fun _ => none,
    botName := "Apollo", deliverOk := fun _ => true }

/-- A sample role. -/
def execRole : Role := { name := "exec", mention := "<@&9>" }

example :
    announcement_check_cycle envAllOk 0 [sampleAnn] =
      ([sampleAnnTriggered],
       [Event.markCommit 0, Event.deliver 0 7 "hello"], none) := by decide

example :
    announcement_check_cycle envNoDeliver 0 [sampleAnn] =
      ([sampleAnnTriggered],
       [Event.markCommit 0, Event.deliverFail 0],
       some SchedErr.deliveryFailed) := by decide

example :
    announcement_check_cycle envC6 0 [annA, annB] =
      ([annA, annB], [], some SchedErr.channelUnresolved) := by decide

example :
    announcement_check_cycle envAllOk 5 [sampleAnnTriggered] =
      ([sampleAnnTriggered], [], none) := by decide

/-!
## Helper lemmas about the loop body and the cycle
-/

/-- The loop body produces one of four outcomes: abort on an unresolved
channel, abort on an unresolved user, a successful mark-and-post, or a
mark followed by a failed post. -/
theorem processItem_shape (env : SchedEnv) (a : Announcement) :
    processItem env a = (false, [], some SchedErr.channelUnresolved) ∨
    processItem env a = (false, [], some SchedErr.userUnresolved) ∨
    processItem env a = (true, [Event.markCommit a.id,
      Event.deliver a.id a.playback_channel_id a.announcement_content], none) ∨
    processItem env a = (true, [Event.markCommit a.id, Event.deliverFail a.id],
      some SchedErr.deliveryFailed) := by
  unfold processItem get_webhook
  by_cases h : env.hasChannel a.playback_channel_id
  · simp only [h, if_true]
    cases hn : resolveName env a
    · simp
    · by_cases hd : env.deliverOk a.playback_channel_id <;> simp [hd]
  · simp [h]

/-- Every event the loop body emits for a record concerns that record. -/
theorem eventId_of_mem_processItem (env : SchedEnv) (a : Announcement) (e : Event)
    (he : e ∈ (processItem env a).2.1) : eventId e = a.id := by
  rcases processItem_shape env a with h | h | h | h <;> rw [h] at he <;> simp at he <;>
    rcases he with rfl | rfl <;> rfl

/-- Marking any record leaves `allTriggered` intact. -/
theorem allTriggered_markTriggered (db : List Announcement) (i j : Nat)
    (h : allTriggered db i) : allTriggered (markTriggered db j) i := by
  intro b hb hbi
  simp only [markTriggered, List.mem_map] at hb
  obtain ⟨a, ha, rfl⟩ := hb
  by_cases hj : a.id = j
  · simp [hj]
  · simp only [hj, if_false] at hbi ⊢
    exact h a ha hbi

/-- After marking the records with id `i`, they all carry `triggered`. -/
theorem allTriggered_markTriggered_self (db : List Announcement) (i : Nat) :
    allTriggered (markTriggered db i) i := by
  intro b hb hbi
  simp only [markTriggered, List.mem_map] at hb
  obtain ⟨a, ha, rfl⟩ := hb
  by_cases hj : a.id = i
  · simp [hj]
  · simp [hj] at hbi

/-- Processing due records never clears a `triggered` flag. -/
theorem allTriggered_runDue (env : SchedEnv) (i : Nat) :
    ∀ (l db : List Announcement), allTriggered db i →
      allTriggered (runDue env l db).1 i := by
  intro l
  induction l with
  | nil => intro db h; simpa [runDue] using h
  | cons a rest ih =>
    intro db h
    rcases hp : processItem env a with ⟨marked, evs, err⟩
    cases err with
    | some e =>
      simp only [runDue, hp]
      cases marked
      · simpa using h
      · simpa using allTriggered_markTriggered db i a.id h
    | none =>
      simp only [runDue, hp]
      cases marked
      · simpa using ih db h
      · simpa using ih _ (allTriggered_markTriggered db i a.id h)

/-- Every event of a run over a snapshot comes from a record of that
snapshot. -/
theorem mem_runDue_events (env : SchedEnv) :
    ∀ (l db : List Announcement) (e : Event), e ∈ (runDue env l db).2.1 →
      ∃ a ∈ l, eventId e = a.id := by
  intro l
  induction l with
  | nil => intro db e he; simp [runDue] at he
  | cons a rest ih =>
    intro db e he
    rcases hp : processItem env a with ⟨marked, evs, err⟩
    have hev : e ∈ evs → eventId e = a.id := fun h =>
      eventId_of_mem_processItem env a e (by rw [hp]; exact h)
    cases err with
    | some _ =>
      simp only [runDue, hp] at he
      exact ⟨a, List.mem_cons_self a rest, hev he⟩
    | none =>
      simp only [runDue, hp, List.mem_append] at he
      rcases he with he | he
      · exact ⟨a, List.mem_cons_self a rest, hev he⟩
      · obtain ⟨b, hb, hid⟩ := ih _ e he
        exact ⟨b, List.mem_cons_of_mem a hb, hid⟩

/-- If a run committed the `triggered` flag of id `i`, every id-`i` record
of the resulting store carries the flag. -/
theorem allTriggered_of_markCommit_runDue (env : SchedEnv) :
    ∀ (l db : List Announcement) (i : Nat),
      Event.markCommit i ∈ (runDue env l db).2.1 →
      allTriggered (runDue env l db).1 i := by
  intro l
  induction l with
  | nil => intro db i h; simp [runDue] at h
  | cons a rest ih =>
    intro db i h
    rcases processItem_shape env a with hp | hp | hp | hp
    · simp only [runDue, hp] at h
      simp at h
    · simp only [runDue, hp] at h
      simp at h
    · simp only [runDue, hp, List.mem_append] at h ⊢
      rcases h with h1 | h2
      · simp at h1
        subst h1
        exact allTriggered_runDue env a.id rest _
          (allTriggered_markTriggered_self db a.id)
      · simpa using ih _ i h2
    · simp only [runDue, hp] at h ⊢
      simp at h
      subst h
      simpa using allTriggered_markTriggered_self db a.id

/-- In a run's event trace, every delivery attempt for id `i` is strictly
preceded by the commit of its `triggered` flag. -/
theorem runDue_mark_before_deliver (env : SchedEnv) :
    ∀ (l db : List Announcement) (i : Nat) (l₁ : List Event) (e : Event)
      (l₂ : List Event),
      (runDue env l db).2.1 = l₁ ++ e :: l₂ → isDeliveryAttempt i e = true →
      Event.markCommit i ∈ l₁ := by
  intro l
  induction l with
  | nil =>
    intro db i l₁ e l₂ h _
    rw [runDue] at h
    exact absurd h.symm (List.append_ne_nil_of_right_ne_nil l₁ (by simp))
  | cons a rest ih =>
    intro db i l₁ e l₂ h hatt
    rcases processItem_shape env a with hp | hp | hp | hp
    · simp only [runDue, hp] at h
      exact absurd h.symm (List.append_ne_nil_of_right_ne_nil l₁ (by simp))
    · simp only [runDue, hp] at h
      exact absurd h.symm (List.append_ne_nil_of_right_ne_nil l₁ (by simp))
    · simp only [runDue, hp, List.cons_append, List.nil_append] at h
      cases l₁ with
      | nil =>
        rw [List.nil_append] at h
        injection h with he h
        rw [← he] at hatt
        simp [isDeliveryAttempt] at hatt
      | cons x l₁' =>
        rw [List.cons_append] at h
        injection h with hx h
        subst hx
        cases l₁' with
        | nil =>
          rw [List.nil_append] at h
          injection h with he h
          rw [← he] at hatt
          simp only [isDeliveryAttempt, beq_iff_eq] at hatt
          simp [← hatt]
        | cons y l₁'' =>
          rw [List.cons_append] at h
          injection h with hy h
          subst hy
          have := ih _ i l₁'' e l₂ h hatt
          simp [this]
    · simp only [runDue, hp, List.cons_append, List.nil_append] at h
      cases l₁ with
      | nil =>
        rw [List.nil_append] at h
        injection h with he h
        rw [← he] at hatt
        simp [isDeliveryAttempt] at hatt
      | cons x l₁' =>
        rw [List.cons_append] at h
        injection h with hx h
        subst hx
        cases l₁' with
        | nil =>
          rw [List.nil_append] at h
          injection h with he h
          rw [← he] at hatt
          simp only [isDeliveryAttempt, beq_iff_eq] at hatt
          simp [← hatt]
        | cons y l₁'' =>
          rw [List.cons_append] at h
          injection h with hy h
          exact absurd h.symm (List.append_ne_nil_of_right_ne_nil l₁'' (by simp))

/-- If some record of the snapshot makes its loop body raise, the whole
run ends in an uncaught exception. -/
theorem runDue_aborts (env : SchedEnv) :
    ∀ (l : List Announcement) (a : Announcement), a ∈ l →
      (processItem env a).2.2 ≠ none →
      ∀ db, (runDue env l db).2.2 ≠ none := by
  intro l
  induction l with
  | nil => intro a ha; exact absurd ha (List.not_mem_nil a)
  | cons x rest ih =>
    intro a ha herr db
    rcases hp : processItem env x with ⟨marked, evs, err⟩
    cases err with
    | some e => simp [runDue, hp]
    | none =>
      simp only [runDue, hp]
      rcases List.mem_cons.mp ha with rfl | ha'
      · rw [hp] at herr
        simp at herr
      · simpa using ih a ha' herr _

/-- A triggered record is selected neither by the scheduler's due query
nor by the pending listing of the `list` command. -/
theorem triggered_not_selected (db : List Announcement) (b : Announcement)
    (ht : b.triggered = true) (now : Int) :
    b ∉ dueQuery db now ∧ b ∉ Announcements.list db now := by
  constructor <;> intro hmem <;>
    simp [dueQuery, Announcements.list, List.mem_filter, ht] at hmem

/-- A cycle over a store whose id-`i` records are all triggered emits no
event about `i` and keeps them all triggered. -/
theorem cycle_allTriggered (env : SchedEnv) (now : Int) (db : List Announcement)
    (i : Nat) (h : allTriggered db i) :
    (∀ e ∈ (announcement_check_cycle env now db).2.1, eventId e ≠ i) ∧
    allTriggered (announcement_check_cycle env now db).1 i := by
  constructor
  · intro e he hei
    obtain ⟨a, ha, hid⟩ := mem_runDue_events env (dueQuery db now) db e he
    have hmem := List.mem_filter.mp ha
    have hai : a.id = i := by rw [← hid, hei]
    have := h a hmem.1 hai
    simp [this] at hmem
  · exact allTriggered_runDue env i (dueQuery db now) db h

/-- Any number of further cycles over a store whose id-`i` records are all
triggered emit no event about `i` and keep them all triggered. -/
theorem runCycles_allTriggered (i : Nat) :
    ∀ (cs : List (SchedEnv × Int)) (db : List Announcement), allTriggered db i →
      (∀ e ∈ (runCycles cs db).2, eventId e ≠ i) ∧
      allTriggered (runCycles cs db).1 i := by
  intro cs
  induction cs with
  | nil =>
    intro db h
    exact ⟨by simp [runCycles], by simpa [runCycles] using h⟩
  | cons c rest ih =>
    intro db h
    obtain ⟨env, now⟩ := c
    obtain ⟨h1, h2⟩ := cycle_allTriggered env now db i h
    obtain ⟨h3, h4⟩ := ih _ h2
    refine ⟨?_, by simpa [runCycles] using h4⟩
    intro e he
    simp only [runCycles, List.mem_append] at he
    rcases he with he | he
    · exact h1 e he
    · exact h3 e he

/-- A record stored under id `i` makes the lookup by id succeed. -/
theorem findAnnouncement_of_mem (db : List Announcement) (i : Nat)
    (a : Announcement) (ha : a ∈ db) (hi : a.id = i) :
    ∃ b, findAnnouncement db i = some b := by
  have hs : (findAnnouncement db i).isSome := by
    rw [findAnnouncement, List.find?_isSome]
    exact ⟨a, ha, by simp [hi]⟩
  exact Option.isSome_iff_exists.mp hs

/-- Updating the record the lookup found puts its image in the store. -/
theorem mem_updateAnnouncement (f : Announcement → Announcement) :
    ∀ (db : List Announcement) (i : Nat) (a : Announcement),
      findAnnouncement db i = some a → f a ∈ updateAnnouncement db i f := by
  intro db
  induction db with
  | nil => intro i a h; simp [findAnnouncement] at h
  | cons x rest ih =>
    intro i a h
    cases hx : (x.id == i) with
    | true =>
      simp only [findAnnouncement, List.find?, hx] at h
      obtain rfl := Option.some.inj h
      simp [updateAnnouncement, hx]
    | false =>
      simp only [findAnnouncement, List.find?, hx] at h
      have hmem := ih i a h
      simp [updateAnnouncement, hx, hmem]

/-- An event whose id is not `i` is not a delivery attempt for `i`. -/
theorem isDeliveryAttempt_false_of_ne (i : Nat) (e : Event) (h : eventId e ≠ i) :
    isDeliveryAttempt i e = false := by
  cases e <;> simp [isDeliveryAttempt, eventId] at h ⊢ <;> exact h

/-!
## The claims
-/

/-- Claim C1: a record with `triggered = true` is excluded from every
scheduler due-scan and from the pending listing; once a scheduler cycle
has processed a record (committed its `markCommit`), every id-matching
record of the store is triggered, and no matter how many further cycles
run, the record is never selected again (no event concerns it) and its
flag is never reset.  The `Nodup` hypothesis records the database's
unique-primary-key invariant, under which the by-id update coincides with
the source's row mutation. -/
theorem announce_C1 (env : SchedEnv) (now : Int) (db : List Announcement) (i : Nat)
    (hids : (db.map Announcement.id).Nodup)
    (hproc : Event.markCommit i ∈ (announcement_check_cycle env now db).2.1) :
    allTriggered (announcement_check_cycle env now db).1 i ∧
    (∀ (b : Announcement) (now' : Int), b ∈ (announcement_check_cycle env now db).1 →
      b.id = i →
      b ∉ dueQuery (announcement_check_cycle env now db).1 now' ∧
      b ∉ Announcements.list (announcement_check_cycle env now db).1 now') ∧
    (∀ cs : List (SchedEnv × Int),
      (∀ e ∈ (runCycles cs (announcement_check_cycle env now db).1).2, eventId e ≠ i) ∧
      allTriggered (runCycles cs (announcement_check_cycle env now db).1).1 i) := by
  have h1 : allTriggered (announcement_check_cycle env now db).1 i :=
    allTriggered_of_markCommit_runDue env (dueQuery db now) db i hproc
  refine ⟨h1, ?_, ?_⟩
  · intro b now' hb hbi
    exact triggered_not_selected _ b (h1 b hb hbi) now'
  · intro cs
    exact runCycles_allTriggered i cs _ h1

/-- Witness for C1: on a store with one due record, the cycle commits its
flag, and the processed record indeed carries `triggered = true`. -/
theorem announce_C1_witness :
    Event.markCommit 0 ∈ (announcement_check_cycle envAllOk 0 [sampleAnn]).2.1 ∧
    sampleAnnTriggered.triggered = true :=
  ⟨by decide,
   (announce_C1 envAllOk 0 [sampleAnn] 0 (by decide) (by decide)).1
     sampleAnnTriggered (by decide) (by decide)⟩

/-- Claim C2: in every cycle trace, any delivery attempt (successful or
failed) for a record is strictly preceded by the commit of its
`triggered` flag; and if the delivery step fails, the record's flag is
set in the resulting store and, over any number of further cycles, the
record is never retried (no delivery attempt concerns it) and its flag is
never reset. -/
theorem announce_C2 (env : SchedEnv) (now : Int) (db : List Announcement) (i : Nat) :
    (∀ (l₁ : List Event) (e : Event) (l₂ : List Event),
      (announcement_check_cycle env now db).2.1 = l₁ ++ e :: l₂ →
      isDeliveryAttempt i e = true → Event.markCommit i ∈ l₁) ∧
    (Event.deliverFail i ∈ (announcement_check_cycle env now db).2.1 →
      allTriggered (announcement_check_cycle env now db).1 i ∧
      (∀ cs : List (SchedEnv × Int),
        (∀ e ∈ (runCycles cs (announcement_check_cycle env now db).1).2,
          isDeliveryAttempt i e = false) ∧
        allTriggered (runCycles cs (announcement_check_cycle env now db).1).1 i)) := by
  constructor
  · exact runDue_mark_before_deliver env (dueQuery db now) db i
  · intro hfail
    obtain ⟨s, t, hst⟩ := List.append_of_mem hfail
    have hmark : Event.markCommit i ∈ s :=
      runDue_mark_before_deliver env (dueQuery db now) db i s _ t hst
        (by simp [isDeliveryAttempt])
    have hmark2 : Event.markCommit i ∈ (announcement_check_cycle env now db).2.1 := by
      rw [hst]
      exact List.mem_append_left _ hmark
    have h1 := allTriggered_of_markCommit_runDue env (dueQuery db now) db i hmark2
    refine ⟨h1, ?_⟩
    intro cs
    obtain ⟨h2, h3⟩ := runCycles_allTriggered i cs _ h1
    exact ⟨fun e he => isDeliveryAttempt_false_of_ne i e (h2 e he), h3⟩

/-- Witness for C2: with every post failing, the cycle still records the
`deliverFail` after the `markCommit`, and the record ends up triggered. -/
theorem announce_C2_witness :
    Event.deliverFail 0 ∈ (announcement_check_cycle envNoDeliver 0 [sampleAnn]).2.1 ∧
    sampleAnnTriggered ∈ (announcement_check_cycle envNoDeliver 0 [sampleAnn]).1 ∧
    sampleAnnTriggered.triggered = true :=
  ⟨by decide, by decide,
   ((announce_C2 envNoDeliver 0 [sampleAnn] 0).2 (by decide)).1
     sampleAnnTriggered (by decide) (by decide)⟩

/-- Claim C3, counterexample: a call to `add` with `trigger_at` exactly
equal to `now` is NOT rejected — the guard is the strict `trigger_time <
now` — so the announcement is persisted and reported as scheduled,
contradicting the claim that every `trigger_at ≤ now` fails and persists
nothing. -/
theorem announce_C3_counterexample :
    (Announcements.add [] 0 (some 0) true (Author.dbUser 5) 3 "hello" 1 true).2 =
      AddOutcome.scheduled ∧
    (Announcements.add [] 0 (some 0) true (Author.dbUser 5) 3 "hello" 1 true).1 ≠
      [] := by decide

/-- Claim C3, amended: `add` fails with the past-time validation message
and persists nothing exactly when `trigger_at` is strictly before `now`
at call time; a `trigger_at` equal to `now` passes the time check. -/
theorem announce_C3_amended (db : List Announcement) (now t : Int) (confirmed : Bool)
    (author : Author) (channelId : Nat) (content : String) (newId : Nat)
    (storeOk : Bool) (h : t < now) :
    Announcements.add db now (some t) confirmed author channelId content newId storeOk
      = (db, AddOutcome.pastTime) ∧
    (Announcements.add db now (some now) confirmed author channelId content newId
      storeOk).2 ≠ AddOutcome.pastTime := by
  constructor
  · simp [Announcements.add, h]
  · by_cases hc : confirmed <;> by_cases hs : storeOk <;>
      simp [Announcements.add, hc, hs, lt_irrefl]

/-- Witness for the amended C3. -/
theorem announce_C3_witness :
    ((-1 : Int) < 0) ∧
    Announcements.add [] 0 (some (-1)) true (Author.dbUser 5) 3 "x" 1 true =
      ([], AddOutcome.pastTime) :=
  ⟨by decide,
   (announce_C3_amended [] 0 (-1) true (Author.dbUser 5) 3 "x" 1 true (by decide)).1⟩

/-- Claim C4, counterexample: `cancel` on a record with `triggered = true`
is neither rejected nor a no-op — the command queries by id only and
deletes whatever it finds, so the triggered record is removed and the
store state changes. -/
theorem announce_C4_counterexample :
    trigAnn.triggered = true ∧
    (Announcements.cancel [trigAnn] 0).1 = [] ∧
    (Announcements.cancel [trigAnn] 0).2 = CancelOutcome.deleted := by decide

/-- Claim C4, amended: `cancel(id)` deletes the first id-matching record
regardless of its `triggered` flag and reports deletion; only a missing
id is reported as not existing, with the store unchanged. -/
theorem announce_C4_amended (db : List Announcement) (i : Nat) (a : Announcement)
    (ha : a ∈ db) (hi : a.id = i) (ht : a.triggered = true) :
    Announcements.cancel db i = (deleteAnnouncement db i, CancelOutcome.deleted) ∧
    ∀ j, findAnnouncement db j = none →
      Announcements.cancel db j = (db, CancelOutcome.notFound) := by
  constructor
  · obtain ⟨b, hb⟩ := findAnnouncement_of_mem db i a ha hi
    simp [Announcements.cancel, hb]
  · intro j hj
    simp [Announcements.cancel, hj]

/-- Witness for the amended C4: cancelling an already-triggered record
deletes it. -/
theorem announce_C4_witness :
    Announcements.cancel [trigAnn] 0 =
      (deleteAnnouncement [trigAnn] 0, CancelOutcome.deleted) :=
  (announce_C4_amended [trigAnn] 0 trigAnn (by decide) (by decide) (by decide)).1

/-- Claim C5: on an unknown id, `cancel` indeed reports not-found with
the store unchanged, but `check` and `mention` dereference the `None`
returned by `.first()` and raise `AttributeError` instead of sending a
user-visible message — the code crashes where the claim requires graceful
handling (the store is still unchanged, as the raise precedes any
mutation). -/
theorem announce_C5_bug :
    Announcements.check [] 1 = Except.error PyError.attributeErrorNone ∧
    Announcements.mention [] 1 [execRole] = Except.error PyError.attributeErrorNone ∧
    Announcements.cancel [] 1 = ([], CancelOutcome.notFound) := ⟨rfl, rfl, rfl⟩

/-- Claim C6, counterexample: with two due items whose first has an
unresolvable destination channel, the cycle aborts with an uncaught
`AttributeError` before emitting any event: the first item is not
skipped, the second is never processed, and the loop crashes —
contradicting skip-and-continue. -/
theorem announce_C6_counterexample :
    annA ∈ dueQuery [annA, annB] 0 ∧
    annB ∈ dueQuery [annA, annB] 0 ∧
    envC6.hasChannel annA.playback_channel_id = false ∧
    announcement_check_cycle envC6 0 [annA, annB] =
      ([annA, annB], [], some SchedErr.channelUnresolved) := by decide

/-- Claim C6, amended: a due item whose destination channel cannot be
resolved makes its loop body raise without marking or delivering, and the
whole cycle ends in an uncaught exception (the loop crashes instead of
skipping); by contrast a mere lack of webhook permission is tolerated —
the body completes with a `None` identity whenever the channel resolves,
the name resolves and the post succeeds, whatever `webhookPerm` says. -/
theorem announce_C6_amended (env : SchedEnv) (now : Int) (db : List Announcement)
    (a : Announcement) (ha : a ∈ dueQuery db now)
    (hch : env.hasChannel a.playback_channel_id = false) :
    processItem env a = (false, [], some SchedErr.channelUnresolved) ∧
    (announcement_check_cycle env now db).2.2 ≠ none ∧
    (∀ b : Announcement, env.hasChannel b.playback_channel_id = true →
      env.deliverOk b.playback_channel_id = true → b.irc_name.isSome = true →
      (processItem env b).2.2 = none) := by
  have hpa : processItem env a = (false, [], some SchedErr.channelUnresolved) := by
    simp [processItem, get_webhook, hch]
  refine ⟨hpa, ?_, ?_⟩
  · exact runDue_aborts env (dueQuery db now) a ha (by rw [hpa]; simp) db
  · intro b h1 h2 h3
    obtain ⟨n, hn⟩ := Option.isSome_iff_exists.mp h3
    simp [processItem, get_webhook, resolveName, h1, h2, hn]

/-- Witness for the amended C6. -/
theorem announce_C6_witness :
    processItem envC6 annA = (false, [], some SchedErr.channelUnresolved) :=
  (announce_C6_amended envC6 0 [annA, annB] annA (by decide) (by decide)).1

/-- Claim C7, counterexample: on the ✅ (confirm) reaction the handler
deletes the prompt and returns `True`, but it also deletes all the
preview messages — they are not left undeleted as the claim states. -/
theorem announce_C7_counterexample :
    (interact [10, 11, 12] "x" false Reaction.confirm).returnValue = true ∧
    (interact [10, 11, 12] "x" false Reaction.confirm).promptDeleted = true ∧
    (interact [10, 11, 12] "x" false Reaction.confirm).deletedPreviews ≠ [] := by
  decide

/-- Claim C7, amended: on the confirm reaction the handler deletes the
prompt, sends the hint only in preview mode, deletes all the preview
messages as well, does not resubmit, and returns success. -/
theorem announce_C7_amended (messages : List Nat) (content : String) (preview : Bool) :
    interact messages content preview Reaction.confirm =
      { promptDeleted := true, deletedPreviews := messages,
        sent := if preview then [previewHint content] else [],
        resubmitted := false, returnValue := true } := rfl

/-- Claim C8: `mention` on a stored announcement succeeds and is purely
additive — the updated record's content extends the original (the
original is an exact prefix), and the appended part is the space-join of
the role mention tokens in input order, preceded by a newline. -/
theorem announce_C8 (db : List Announcement) (i : Nat) (roles : List Role)
    (a : Announcement) (hfind : findAnnouncement db i = some a) :
    Announcements.mention db i roles =
      Except.ok (updateAnnouncement db i (mentionUpdate roles),
        mentionMessage i roles) ∧
    mentionUpdate roles a ∈ updateAnnouncement db i (mentionUpdate roles) ∧
    (mentionUpdate roles a).announcement_content =
      a.announcement_content ++
        ("\n" ++ String.intercalate " " (roles.map Role.mention)) ∧
    (∃ t, (mentionUpdate roles a).announcement_content =
      a.announcement_content ++ t) := by
  have hc : (mentionUpdate roles a).announcement_content =
      a.announcement_content ++
        ("\n" ++ String.intercalate " " (roles.map Role.mention)) := by
    simp [mentionUpdate, String.append_assoc]
  exact ⟨by simp [Announcements.mention, hfind],
         mem_updateAnnouncement _ db i a hfind, hc, ⟨_, hc⟩⟩

/-- Witness for C8. -/
theorem announce_C8_witness :
    mentionUpdate [execRole] sampleAnn ∈
      updateAnnouncement [sampleAnn] 0 (mentionUpdate [execRole]) :=
  (announce_C8 [sampleAnn] 0 [execRole] sampleAnn (by decide)).2.1

/-- Claim C10: `mention` sets the found record's content to exactly the
old content, a single newline, then the space-joined mention tokens; with
zero roles the content is still mutated — a trailing newline is appended,
which changes the string — and the updated store is still committed. -/
theorem announce_C10 (db : List Announcement) (i : Nat) (roles : List Role)
    (a : Announcement) (hfind : findAnnouncement db i = some a) :
    Announcements.mention db i roles =
      Except.ok (updateAnnouncement db i (mentionUpdate roles),
        mentionMessage i roles) ∧
    Announcements.mention db i [] =
      Except.ok (updateAnnouncement db i (mentionUpdate []), mentionMessage i []) ∧
    mentionUpdate [] a =
      { a with announcement_content := a.announcement_content ++ "\n" } ∧
    { a with announcement_content := a.announcement_content ++ "\n" } ∈
      updateAnnouncement db i (mentionUpdate []) ∧
    a.announcement_content ++ "\n" ≠ a.announcement_content := by
  have hz : mentionUpdate [] a =
      { a with announcement_content := a.announcement_content ++ "\n" } := by
    simp only [mentionUpdate, List.map_nil]
    rw [show String.intercalate " " [] = "" from rfl, String.append_empty]
  refine ⟨by simp [Announcements.mention, hfind],
          by simp [Announcements.mention, hfind], hz, ?_, ?_⟩
  · rw [← hz]
    exact mem_updateAnnouncement _ db i a hfind
  · intro h
    have hlen := congrArg String.length h
    rw [String.length_append] at hlen
    rw [show ("\n" : String).length = 1 from rfl] at hlen
    omega

/-- Witness for C10: with zero roles the sample record's content gains
exactly a trailing newline. -/
theorem announce_C10_witness :
    { sampleAnn with announcement_content :=
        sampleAnn.announcement_content ++ "\n" } ∈
      updateAnnouncement [sampleAnn] 0 (mentionUpdate []) :=
  (announce_C10 [sampleAnn] 0 [] sampleAnn (by decide)).2.2.2.1

/-- Claim C9: a record built by `add_announcement` carries `irc_name`
exactly when its author is a bridge identity; a bridge record stores the
display name with the dummy user id 1 (no meaningful user reference),
while an authenticated record stores the resolved database user id with
no `irc_name`. -/
theorem announce_C9 (author : Author) (channelId : Nat) (t : Int)
    (content : String) (newId : Nat) :
    ((add_announcement author channelId t content newId).irc_name.isSome ↔
      ∃ n, author = Author.ircUser n) ∧
    (∀ n, author = Author.ircUser n →
      (add_announcement author channelId t content newId).irc_name = some n ∧
      (add_announcement author channelId t content newId).user_id = 1) ∧
    (∀ uid, author = Author.dbUser uid →
      (add_announcement author channelId t content newId).irc_name = none ∧
      (add_announcement author channelId t content newId).user_id = uid) := by
  cases author <;> simp [add_announcement]

/-- Witness for C9: a bridge-authored record has its display name and the
dummy user id. -/
theorem announce_C9_witness :
    (add_announcement (Author.ircUser "bob") 1 0 "x" 2).irc_name = some "bob" ∧
    (add_announcement (Author.ircUser "bob") 1 0 "x" 2).user_id = 1 :=
  (announce_C9 (Author.ircUser "bob") 1 0 "x" 2).2.1 "bob" rfl
